import Mathlib

/-!
Verification development for the yt_downloader job-orchestration core.

The definitions below are a shallow embedding of the Python sources:
  * `src/yt_downloader/domain/jobs.py`     — `JobStatus`, `Job`, `JobManager`
  * `src/yt_downloader/services/downloader.py` — `_safe_percent`,
    `_unique_path`, `_compose_format`, `run_download` and its nested `hook`
  * `src/yt_downloader/infra/fs.py`        — `resolve_target_dir`
  * `src/yt_downloader/api/http.py`        — `post_download`

Modelling conventions:
  * Python floats are modelled as exact rationals (`ℚ`); the percent
    arithmetic here only guards, divides and clamps, which is
    representation-independent.
  * Python `Optional[T]` becomes `Option T`; raised exceptions become
    explicit `Except`/sum results.
  * Filesystem paths are modelled as strings (for files) or as lists of
    resolved components (for directories, where `Path.relative_to`
    succeeds exactly when the base is a component-wise prefix).
  * The progress-hook dictionary of yt-dlp is modelled by the extracted
    field values the Python code reads from it (`downloaded_bytes`,
    `fragment_index`, `fragment_count`, `total_bytes` /
    `total_bytes_estimate`, `filename`).
-/

namespace YtDl

/-- `JobStatus` from `domain/jobs.py` (lines 20-33). -/
inductive JobStatus where
  | queued
  | running
  | succeeded
  | failed
  | cancelled
deriving DecidableEq

/-- Terminal states per the `JobStatus` docstring and the terminal-state
set used by `api/ws.py` line 66: `SUCCEEDED`, `FAILED`, `CANCELLED`. -/
def isTerminal (s : JobStatus) : Bool :=
  s == JobStatus.succeeded || s == JobStatus.failed || s == JobStatus.cancelled

/-- The `Job` dataclass from `domain/jobs.py` (lines 71-93).  The `task`
field of the Python dataclass is tracked in the manager's id→task map
(see `JobManagerState.tasks` below) rather than inside the record, to keep
the record first-order; `cancel` only ever consults that map. -/
structure Job where
  id : String
  url : String
  format_id : String
  target_dir : List String
  status : JobStatus := JobStatus.queued
  progress_percent : ℚ := 0
  bytes_downloaded : Int := 0
  total_bytes : Option Int := none
  file_path : Option String := none
  error : Option String := none
deriving DecidableEq

/-- Python's builtin `min` on two numbers (kernel-reducible form). -/
def pymin (a b : ℚ) : ℚ := if b < a then b else a

/-- Python's builtin `max` on two numbers (kernel-reducible form). -/
def pymax (a b : ℚ) : ℚ := if a < b then b else a

/-- `_safe_percent` from `services/downloader.py` (lines 16-27).
Python's `if not total or total <= 0: return 0.0` treats both a missing
total (`None`) and a non-positive total as the guard case; otherwise the
result is `max(0.0, min(100.0, (downloaded / total) * 100.0))`. -/
def _safe_percent (downloaded : Int) (total : Option Int) : ℚ :=
  match total with
  | none => 0
  | some t =>
      if t ≤ 0 then 0
      else pymax 0 (pymin 100 ((downloaded : ℚ) / (t : ℚ) * 100))

/-- One invocation of the yt-dlp progress hook, by the fields the code
reads: `status == "downloading"` carries `downloaded_bytes`,
`fragment_index`, `fragment_count` (each `int(... or 0)`) and
`total_bytes`/`total_bytes_estimate`; `status == "finished"` carries the
optional `filename`.  Any other status is ignored by the hook. -/
inductive HookEvent where
  | downloading (downloaded : Int) (fragment_index : Int) (fragment_count : Int)
      (total : Option Int)
  | finished (filename : Option String)
  | other
deriving DecidableEq

/-- The nested `hook` of `run_download` (`services/downloader.py` lines
190-246) as a state transformer on the job record.  The broadcast calls
it fires do not mutate the job and are modelled separately (`broadcast`
below).  On `"downloading"`: update byte counters, compute a clamped
percent from fragment counts when `fragment_count > 1` else from bytes,
and never let the recorded percent decrease.  On `"finished"`: record the
reported filename when non-empty (Python truthiness), set the percent to
exactly 100 and the status to `SUCCEEDED`. -/
def hook (job : Job) (e : HookEvent) : Job :=
  match e with
  | HookEvent.downloading downloaded fragment_index fragment_count total =>
      let job := { job with bytes_downloaded := downloaded, total_bytes := total }
      let percent : ℚ :=
        if fragment_count > 1 then
          pymax 0 (pymin (_safe_percent fragment_index (some fragment_count)) 100)
        else
          pymax 0 (pymin (_safe_percent downloaded total) 100)
      let percent := if percent < job.progress_percent then job.progress_percent else percent
      { job with progress_percent := percent }
  | HookEvent.finished filename =>
      let job :=
        match filename with
        | some s => if s = "" then job else { job with file_path := some s }
        | none => job
      { job with progress_percent := 100, status := JobStatus.succeeded }
  | HookEvent.other => job

/-- Outcome of the blocking `ydl.download` call awaited through
`asyncio.to_thread` (`run_download` lines 271-298): it returns normally,
raises an `Exception` (caught, with its message captured), or the await
is interrupted by task cancellation.  `asyncio.CancelledError` derives
from `BaseException` (not `Exception`) in Python ≥ 3.8, so the
`except Exception` clause of `run_download` does not catch it and the
coroutine exits without any further status assignment. -/
inductive BlockingResult where
  | returned
  | raised (msg : String)
  | interrupted
deriving DecidableEq

/-- The re-initialization performed by `run_download` before starting the
blocking call (lines 263-268): status `RUNNING`, progress reset, stale
error/result fields cleared. -/
def reset_before_run (job : Job) : Job :=
  { job with
      status := JobStatus.running
      progress_percent := 0
      bytes_downloaded := 0
      total_bytes := none
      error := none
      file_path := none }

/-- `run_download` (`services/downloader.py` lines 163-298), given the
sequence of hook invocations that fired before the blocking call ended
and the way it ended.  On normal return a job still `RUNNING` is
finalized to `SUCCEEDED` with percent 100; on a raised `Exception` the
status becomes `FAILED` with the message captured; on interruption
(cancellation) no handler runs and the job is left exactly as the hooks
left it. -/
def run_download (job0 : Job) (events : List HookEvent) (res : BlockingResult) : Job :=
  let job := List.foldl hook (reset_before_run job0) events
  match res with
  | BlockingResult.returned =>
      if job.status = JobStatus.running then
        { job with status := JobStatus.succeeded, progress_percent := 100 }
      else job
  | BlockingResult.raised msg => { job with status := JobStatus.failed, error := some msg }
  | BlockingResult.interrupted => job

/-- The successive job states observed during the hook sequence: the
state before any hook fired followed by the state after each hook. -/
def run_states (j : Job) : List HookEvent → List Job
  | [] => [j]
  | e :: es => j :: run_states (hook j e) es

/-- All states a job passes through in one `run_download` lifetime:
every intermediate hook state plus the final state. -/
def run_trace (job0 : Job) (events : List HookEvent) (res : BlockingResult) : List Job :=
  run_states (reset_before_run job0) events ++ [run_download job0 events res]

/-- A concrete job record used for concrete evaluations. -/
def job₀ : Job :=
  { id := "job-1", url := "https://example.com/v", format_id := "18",
    target_dir := ["downloads"] }

/-- An asyncio task handle as consulted by `JobManager.cancel`
(`domain/jobs.py` lines 183-188): the only property read is
`task.done()`; a task object is always truthy. -/
structure TaskHandle where
  done : Bool
deriving DecidableEq

/-- A websocket observer handle as seen by `JobManager.broadcast`: the
only behaviour that matters is whether `ws.send_json` raises (`fails`). -/
structure WS where
  wsId : Nat
  fails : Bool
deriving DecidableEq

/-- The mutable maps of `JobManager` (`domain/jobs.py` lines 125-129):
`_jobs`, `_tasks` and `_subscribers`, each keyed by job id.  The
`asyncio.Lock` serializes map access; every operation below corresponds
to one critical section (plus, for `broadcast`, the sends performed
after the lock is released). -/
structure JobManagerState where
  jobs : List (String × Job)
  tasks : List (String × TaskHandle)
  subscribers : List (String × List WS)
deriving DecidableEq

/-- `JobManager.create_job` (lines 131-145): insert a fresh `QUEUED` job
under the (assumed fresh) generated id and `setdefault` an empty
subscriber set for it.  Returns the updated state and the job. -/
def create_job (st : JobManagerState) (url format_id : String)
    (target_dir : List String) (job_id : String) : JobManagerState × Job :=
  let job : Job := { id := job_id, url := url, format_id := format_id,
                     target_dir := target_dir }
  ({ st with
      jobs := (job_id, job) :: st.jobs
      subscribers :=
        match st.subscribers.lookup job_id with
        | some _ => st.subscribers
        | none => (job_id, []) :: st.subscribers },
   job)

/-- `JobManager.set_task` (lines 159-172): record the task handle for a
job in the id→task map. -/
def set_task (st : JobManagerState) (job_id : String) (task : TaskHandle) :
    JobManagerState :=
  { st with tasks := (job_id, task) :: st.tasks }

/-- `JobManager.cancel` (lines 174-188): look the task up; if a task is
recorded and not done, request cancellation and return `True`, else
return `False`.  The job map and job statuses are never consulted. -/
def cancel (st : JobManagerState) (job_id : String) : Bool :=
  match st.tasks.lookup job_id with
  | some task => !task.done
  | none => false

/-- `JobManager.subscribe` (lines 190-199): add the observer to the
job's (lazily created) subscriber set. -/
def subscribe (st : JobManagerState) (job_id : String) (ws : WS) :
    JobManagerState :=
  let subs := (st.subscribers.lookup job_id).getD []
  { st with subscribers := (job_id, ws :: subs) :: st.subscribers }

/-- `JobManager.unsubscribe` (lines 201-212): remove the observer from
the job's subscriber set if present. -/
def unsubscribe (st : JobManagerState) (job_id : String) (ws : WS) :
    JobManagerState :=
  match st.subscribers.lookup job_id with
  | some subs =>
      { st with subscribers := (job_id, subs.filter (fun w => w ≠ ws)) :: st.subscribers }
  | none => st

/-- `JobManager.broadcast` (lines 214-230): snapshot the subscriber set
under the lock, then attempt `ws.send_json(message)` on each observer;
an observer whose send raises is skipped (`except Exception: pass`) and
delivery continues with the rest.  The function itself never raises and
never mutates any map; it returns the (unchanged) state together with
the list of successful deliveries. -/
def broadcast (st : JobManagerState) (job_id : String) (message : String) :
    JobManagerState × List (WS × String) :=
  let subscribers := (st.subscribers.lookup job_id).getD []
  (st, (subscribers.filter (fun ws => !ws.fails)).map (fun ws => (ws, message)))

/-- The probe metadata `_compose_format` reads for one format entry
(`services/downloader.py` lines 148-155): its `format_id` (stringified)
and optional `vcodec`/`acodec`. -/
structure FormatInfo where
  format_id : String
  vcodec : Option String
  acodec : Option String
deriving DecidableEq

/-- Python truthiness-plus-comparison `c and c != "none"` used on codec
fields: `None` and the empty string are falsy, and the literal string
`"none"` marks an absent track. -/
def is_real_codec (c : Option String) : Bool :=
  match c with
  | none => false
  | some s => !(s == "") && !(s == "none")

/-- Python's `"+" in s` substring test, for a single-character needle:
membership of the character in the string. -/
def contains_char (s : String) (c : Char) : Bool :=
  s.data.contains c

/-- `_compose_format` (`services/downloader.py` lines 114-160).  The
probe argument is `none` when `extract_info` raised, else the `formats`
list of the probe result.  A compound selector (containing `+` or `/`)
passes through; otherwise the first format whose id equals the selector
decides: both codecs real ⇒ selector unchanged, else selector plus
`"+bestaudio/best"`; a failed probe falls back to the combined selector;
a probe with no matching entry returns the selector unchanged (line
160). -/
def _compose_format (user_selector : String) (probe : Option (List FormatInfo)) :
    String :=
  if contains_char user_selector '+' || contains_char user_selector '/' then user_selector
  else
    match probe with
    | none => user_selector ++ "+bestaudio/best"
    | some formats =>
        match formats.find? (fun fmt => fmt.format_id == user_selector) with
        | some fmt =>
            if is_real_codec fmt.vcodec && is_real_codec fmt.acodec then user_selector
            else user_selector ++ "+bestaudio/best"
        | none => user_selector

/-- A `pathlib.Path` as used by `_unique_path`: its parent directory,
stem and suffix; `render_path` rebuilds the full path string. -/
structure PurePath where
  parent : String
  stem : String
  suffix : String
deriving DecidableEq

/-- Full path string of a `PurePath`. -/
def render_path (p : PurePath) : String :=
  p.parent ++ "/" ++ p.stem ++ p.suffix

/-- The loop candidate `parent / f"{stem} ({i}){suffix}"` of
`_unique_path` (line 80). -/
def candidate (p : PurePath) (i : Nat) : PurePath :=
  { p with stem := p.stem ++ " (" ++ toString i ++ ")" }

/-- The `while True` search of `_unique_path` (lines 78-83), embedded
with an explicit fuel bound: starting at index `i`, return the first
candidate that does not exist on the filesystem `fs`.  The Python loop
is the `fuel → ∞` limit; whenever it terminates its result is produced
by every sufficiently large fuel. -/
def _unique_path_loop (fs : String → Bool) (p : PurePath) :
    Nat → Nat → Option PurePath
  | 0, _ => none
  | Nat.succ fuel, i =>
      let cand := candidate p i
      if fs (render_path cand) = false then some cand
      else _unique_path_loop fs p fuel (i + 1)

/-- `_unique_path` (`services/downloader.py` lines 64-83) over an
existence oracle `fs` (`Path.exists`): the path itself when free, else
the first free ` (n)`-disambiguated sibling starting from `n = 1`. -/
def _unique_path (fs : String → Bool) (p : PurePath) (fuel : Nat) :
    Option PurePath :=
  if fs (render_path p) = false then some p
  else _unique_path_loop fs p fuel 1

/-- The settings fields `resolve_target_dir` reads (`core/config.py`):
the sandbox base and the default download directory, as resolved
absolute component lists. -/
structure FsSettings where
  allowed_base_dir : List String
  default_download_dir : List String

/-- `resolve_target_dir` (`infra/fs.py` lines 10-53) over resolved
component lists: `Path.relative_to(base)` succeeds exactly when `base`
is a component-wise prefix of the resolved target, so a non-prefix
target raises `ValueError` before any directory is created; then the
directory is created and must be a directory (`is_dir_after_mkdir`
models the filesystem answer after `mkdir(parents=True, exist_ok=True)`).
An absent/empty user path falls back to the default download dir. -/
def resolve_target_dir (path_opt : Option (List String)) (settings : FsSettings)
    (is_dir_after_mkdir : List String → Bool) : Except String (List String) :=
  let base := settings.allowed_base_dir
  let target :=
    match path_opt with
    | none => settings.default_download_dir
    | some p => p
  if base.isPrefixOf target = false then
    Except.error "Target directory is outside the allowed base directory"
  else if is_dir_after_mkdir target = false then
    Except.error "Target path is not a directory"
  else Except.ok target

/-- The `POST /api/download` payload (`DownloadRequest` in
`domain/jobs.py` lines 36-49), with the target directory already in
resolved-component form. -/
structure DownloadRequest where
  url : String
  formatId : String
  targetDir : Option (List String)

/-- Concrete path `/downloads/video.mp4` for the disambiguation
scenarios. -/
def videoPath : PurePath :=
  { parent := "/downloads", stem := "video", suffix := ".mp4" }

/-- Filesystem on which only `video.mp4` exists. -/
def fsV : String → Bool := fun s => s == "/downloads/video.mp4"

/-- Filesystem on which `video.mp4` and `video (1).mp4` exist. -/
def fsV2 : String → Bool :=
  fun s => s == "/downloads/video.mp4" || s == "/downloads/video (1).mp4"

/-- A concrete running job and a concrete succeeded job, registered under
ids `"a"` and `"b"` with a live and a completed task respectively. -/
def jobRunningA : Job := { job₀ with id := "a", status := JobStatus.running }

/-- The succeeded job registered under id `"b"` in `st_w`. -/
def jobDoneB : Job :=
  { job₀ with id := "b", status := JobStatus.succeeded, progress_percent := 100 }

/-- A concrete manager state: a running job with a live task and a
succeeded job with a completed task. -/
def st_w : JobManagerState :=
  { jobs := [("a", jobRunningA), ("b", jobDoneB)],
    tasks := [("a", { done := false }), ("b", { done := true })],
    subscribers := [("a", []), ("b", [])] }

/-- A concrete manager state exhibiting the decoupling of `task.done()`
from job status that the program can reach: job `"run"` was left
`RUNNING` by an interrupted worker (the C1 bug — the coroutine ended, so
its task is done, but no handler ever set a terminal status), and job
`"done"` was marked `SUCCEEDED` by the `finished` hook while the
blocking `ydl.download` call — and hence the worker task — is still
running. -/
def jobRunInterrupted : Job := { job₀ with id := "run", status := JobStatus.running }

/-- The hook-succeeded job registered under id `"done"` in `st_c`. -/
def jobDoneEarly : Job :=
  { job₀ with id := "done", status := JobStatus.succeeded, progress_percent := 100 }

/-- The manager state holding `jobRunInterrupted` (done task) and
`jobDoneEarly` (live task). -/
def st_c : JobManagerState :=
  { jobs := [("run", jobRunInterrupted), ("done", jobDoneEarly)],
    tasks := [("run", { done := true }), ("done", { done := false })],
    subscribers := [] }

/-- A concrete manager state with three subscribers on job `"a"`, the
second of which fails on delivery. -/
def st_b : JobManagerState :=
  { jobs := [], tasks := [],
    subscribers := [("a", [{ wsId := 1, fails := false },
                           { wsId := 2, fails := true },
                           { wsId := 3, fails := false }])] }

/-- `post_download` (`api/http.py` lines 59-88): resolve and sandbox the
target directory first — a `ValueError` becomes an HTTP 400 and the
handler returns with the manager state untouched — then create the job,
spawn the worker task and record its handle, and answer with the job id. -/
def post_download (st : JobManagerState) (payload : DownloadRequest)
    (settings : FsSettings) (is_dir_after_mkdir : List String → Bool)
    (fresh_id : String) : JobManagerState × Except (Nat × String) String :=
  match resolve_target_dir payload.targetDir settings is_dir_after_mkdir with
  | Except.error msg => (st, Except.error (400, msg))
  | Except.ok target =>
      let created := create_job st payload.url payload.formatId target fresh_id
      let st2 := set_task created.1 fresh_id { done := false }
      (st2, Except.ok fresh_id)

theorem pymin_eq_min (a b : ℚ) : pymin a b = min a b := by
  unfold pymin
  rcases lt_or_le b a with h | h
  · rw [if_pos h, min_eq_right h.le]
  · rw [if_neg (not_lt.mpr h), min_eq_left h]

theorem pymax_eq_max (a b : ℚ) : pymax a b = max a b := by
  unfold pymax
  rcases lt_or_le a b with h | h
  · rw [if_pos h, max_eq_right h.le]
  · rw [if_neg (not_lt.mpr h), max_eq_left h]

theorem safe_percent_nonneg (downloaded : Int) (total : Option Int) :
    0 ≤ _safe_percent downloaded total := by
  cases total with
  | none => simp [_safe_percent]
  | some t =>
      by_cases h : t ≤ 0
      · simp [_safe_percent, h]
      · simp only [_safe_percent, if_neg h, pymax_eq_max]
        exact le_max_left 0 _

theorem safe_percent_le_100 (downloaded : Int) (total : Option Int) :
    _safe_percent downloaded total ≤ 100 := by
  cases total with
  | none => simp [_safe_percent]
  | some t =>
      by_cases h : t ≤ 0
      · simp [_safe_percent, h]
      · simp only [_safe_percent, if_neg h, pymax_eq_max, pymin_eq_min]
        exact max_le (by norm_num) (min_le_left _ _)

/-- C10: `_safe_percent` is total and guarded: it returns 0 whenever the
total is absent or non-positive (so no division by zero can occur), it
otherwise returns `(downloaded / total) * 100` clamped to `[0, 100]`,
and its result always lies in `[0, 100]`. -/
theorem safe_percent_spec (downloaded : Int) (total : Option Int) :
    (total = none → _safe_percent downloaded total = 0) ∧
    (∀ t : Int, total = some t → t ≤ 0 → _safe_percent downloaded total = 0) ∧
    (∀ t : Int, total = some t → 0 < t →
      _safe_percent downloaded total =
        max 0 (min 100 ((downloaded : ℚ) / (t : ℚ) * 100))) ∧
    (0 ≤ _safe_percent downloaded total ∧ _safe_percent downloaded total ≤ 100) := by
  refine ⟨?_, ?_, ?_, safe_percent_nonneg downloaded total, safe_percent_le_100 downloaded total⟩
  · intro h
    rw [h]
    rfl
  · intro t ht hle
    rw [ht]
    simp [_safe_percent, hle]
  · intro t ht hpos
    rw [ht]
    simp only [_safe_percent, if_neg (not_le.mpr hpos)]
    rw [pymax_eq_max, pymin_eq_min]

/-- Witness for C10 at concrete inputs. -/
theorem safe_percent_spec_witness :
    _safe_percent 7 none = 0 ∧ _safe_percent 7 (some 0) = 0 ∧
    _safe_percent 50 (some 200) = max 0 (min 100 ((50 : ℚ) / (200 : ℚ) * 100)) ∧
    (0 ≤ _safe_percent 7 (some 3) ∧ _safe_percent 7 (some 3) ≤ 100) :=
  ⟨(safe_percent_spec 7 none).1 rfl,
   (safe_percent_spec 7 (some 0)).2.1 0 rfl (by norm_num),
   (safe_percent_spec 50 (some 200)).2.2.1 200 rfl (by norm_num),
   (safe_percent_spec 7 (some 3)).2.2.2⟩

/-- C7 counterexample: against a probe result where the entry for itag
18 carries a real audio codec but no video codec (an audio-only entry),
`_compose_format` does NOT return `"18"` unchanged as the claim states:
the code requires both codecs to be real and returns the combined
selector instead. -/
theorem compose_format_counterexample :
    _compose_format "18"
        (some [{ format_id := "18", vcodec := some "none", acodec := some "mp4a.40.2" }]) =
      "18+bestaudio/best" ∧
    is_real_codec (some "mp4a.40.2") = true ∧
    _compose_format "18"
        (some [{ format_id := "18", vcodec := some "none", acodec := some "mp4a.40.2" }]) ≠
      "18" := by
  refine ⟨by decide, by decide, by decide⟩

/-- C7 (amended): a selector containing a combinator token passes
through unchanged; a bare selector whose probe fails yields
`selector ++ "+bestaudio/best"`; a bare `"18"` whose probe entry for
itag 18 has `acodec = "none"` yields `"18+bestaudio/best"`; and a bare
`"18"` whose probe entry has both a real audio codec and a real video
codec yields `"18"` unchanged. -/
theorem compose_format_spec :
    (∀ sel probe, (contains_char sel '+' || contains_char sel '/') = true →
      _compose_format sel probe = sel) ∧
    (∀ sel, (contains_char sel '+' || contains_char sel '/') = false →
      _compose_format sel none = sel ++ "+bestaudio/best") ∧
    (∀ formats fmt,
      List.find? (fun f => f.format_id == "18") formats = some fmt →
      fmt.acodec = some "none" →
      _compose_format "18" (some formats) = "18+bestaudio/best") ∧
    (∀ formats fmt,
      List.find? (fun f => f.format_id == "18") formats = some fmt →
      is_real_codec fmt.acodec = true → is_real_codec fmt.vcodec = true →
      _compose_format "18" (some formats) = "18") := by
  refine ⟨?_, ?_, ?_, ?_⟩
  · intro sel probe h
    simp [_compose_format, h]
  · intro sel h
    simp [_compose_format, h]
  · intro formats fmt hfind hac
    have hbare : (contains_char "18" '+' || contains_char "18" '/') = false := by decide
    simp only [_compose_format, hbare, Bool.false_eq_true, if_false, hfind]
    have : is_real_codec fmt.acodec = false := by rw [hac]; decide
    simp [this]
  · intro formats fmt hfind hac hvc
    have hbare : (contains_char "18" '+' || contains_char "18" '/') = false := by decide
    simp only [_compose_format, hbare, Bool.false_eq_true, if_false, hfind]
    simp [hac, hvc]

/-- Witness for C7 at concrete inputs. -/
theorem compose_format_spec_witness :
    _compose_format "18+bestaudio/best" (some []) = "18+bestaudio/best" ∧
    _compose_format "22" none = "22+bestaudio/best" ∧
    _compose_format "18"
        (some [{ format_id := "18", vcodec := some "avc1", acodec := some "none" }]) =
      "18+bestaudio/best" ∧
    _compose_format "18"
        (some [{ format_id := "18", vcodec := some "avc1", acodec := some "mp4a.40.2" }]) =
      "18" :=
  ⟨compose_format_spec.1 "18+bestaudio/best" (some []) (by decide),
   compose_format_spec.2.1 "22" (by decide),
   compose_format_spec.2.2.1
     [{ format_id := "18", vcodec := some "avc1", acodec := some "none" }]
     { format_id := "18", vcodec := some "avc1", acodec := some "none" }
     (by decide) rfl,
   compose_format_spec.2.2.2
     [{ format_id := "18", vcodec := some "avc1", acodec := some "mp4a.40.2" }]
     { format_id := "18", vcodec := some "avc1", acodec := some "mp4a.40.2" }
     (by decide) (by decide) (by decide)⟩

theorem unique_path_loop_sound :
    ∀ (fuel i : Nat) (fs : String → Bool) (p q : PurePath),
    _unique_path_loop fs p fuel i = some q →
    ∃ n, i ≤ n ∧ q = candidate p n ∧ fs (render_path (candidate p n)) = false ∧
      ∀ m, i ≤ m → m < n → fs (render_path (candidate p m)) = true := by
  intro fuel
  induction fuel with
  | zero =>
      intro i fs p q h
      simp [_unique_path_loop] at h
  | succ fuel ih =>
      intro i fs p q h
      by_cases hc : fs (render_path (candidate p i)) = false
      · simp only [_unique_path_loop, hc, if_pos] at h
        injection h with h
        subst h
        refine ⟨i, le_refl i, rfl, hc, ?_⟩
        intro m him hlt
        omega
      · have hc' : fs (render_path (candidate p i)) = true := by
          revert hc
          cases fs (render_path (candidate p i)) <;> simp
        simp only [_unique_path_loop, hc', Bool.true_eq_false, if_false] at h
        obtain ⟨n, hin, hq, hfree, hall⟩ := ih (i + 1) fs p q h
        refine ⟨n, by omega, hq, hfree, ?_⟩
        intro m him hlt
        by_cases hmi : m = i
        · rw [hmi]
          exact hc'
        · exact hall m (by omega) hlt

/-- C8: unique-path disambiguation.  When no file exists at the
requested path the result is the path itself; with `video.mp4` present
the result is `video (1).mp4`; with both present it is `video (2).mp4`;
and in general whenever the search returns, the result under an occupied
requested path is ` (n)`-disambiguated for the least free `n ≥ 1`, with
the parent directory preserved. -/
theorem unique_path_spec :
    (∀ (fs : String → Bool) (p : PurePath) (fuel : Nat),
      fs (render_path p) = false → _unique_path fs p fuel = some p) ∧
    _unique_path fsV videoPath 10 =
      some { parent := "/downloads", stem := "video (1)", suffix := ".mp4" } ∧
    _unique_path fsV2 videoPath 10 =
      some { parent := "/downloads", stem := "video (2)", suffix := ".mp4" } ∧
    (∀ (fs : String → Bool) (p : PurePath) (fuel : Nat) (q : PurePath),
      _unique_path fs p fuel = some q →
      q.parent = p.parent ∧ fs (render_path q) = false ∧
      (fs (render_path p) = true →
        ∃ n, 1 ≤ n ∧ q = candidate p n ∧
          ∀ m, 1 ≤ m → m < n → fs (render_path (candidate p m)) = true)) := by
  refine ⟨?_, by decide, by decide, ?_⟩
  · intro fs p fuel h
    simp [_unique_path, h]
  · intro fs p fuel q h
    by_cases hp : fs (render_path p) = false
    · simp only [_unique_path, hp, if_pos] at h
      injection h with h
      subst h
      refine ⟨rfl, hp, ?_⟩
      intro habs
      rw [habs] at hp
      exact absurd hp (by simp)
    · have hp' : fs (render_path p) = true := by
        revert hp
        cases fs (render_path p) <;> simp
      simp only [_unique_path, hp', Bool.true_eq_false, if_false] at h
      obtain ⟨n, hin, hq, hfree, hall⟩ := unique_path_loop_sound fuel 1 fs p q h
      refine ⟨?_, ?_, fun _ => ⟨n, hin, hq, hall⟩⟩
      · rw [hq]
        rfl
      · rw [hq]
        exact hfree

/-- Witness for C8 at concrete inputs. -/
theorem unique_path_spec_witness :
    _unique_path (fun _ => false) videoPath 3 = some videoPath ∧
    ({ parent := "/downloads", stem := "video (1)", suffix := ".mp4" } : PurePath).parent =
      videoPath.parent :=
  ⟨unique_path_spec.1 (fun _ => false) videoPath 3 rfl,
   (unique_path_spec.2.2.2 fsV videoPath 10
     { parent := "/downloads", stem := "video (1)", suffix := ".mp4" } (by decide)).1⟩

/-- C4 counterexample: `cancel` never consults the job's status, so the
status-based cases of the claim fail in reachable states.  In `st_c`,
job `"run"` is `RUNNING` with a recorded handle, yet `cancel` returns
false (its worker coroutine was interrupted, so the task is done while
the status stays `RUNNING` — the confirmed C1 bug makes this state
permanent); and job `"done"` is already terminal (`SUCCEEDED`, set by
the `finished` hook while the blocking call still runs), yet `cancel`
returns true. -/
theorem cancel_claim_counterexample :
    (st_c.jobs.lookup "run").map Job.status = some JobStatus.running ∧
    (st_c.tasks.lookup "run").isSome = true ∧
    cancel st_c "run" = false ∧
    (st_c.jobs.lookup "done").map Job.status = some JobStatus.succeeded ∧
    isTerminal JobStatus.succeeded = true ∧
    cancel st_c "done" = true := by
  refine ⟨by decide, by decide, by decide, by decide, by decide, by decide⟩

/-- C4 (amended): `cancel` returns true iff a task handle is recorded
for the id and that task is not yet done (a cancellation signal is then
sent), and it returns false for an unknown id — `set_task` records
handles only for registered jobs, stated as the hypothesis `hknown`.
Job status is not consulted, so status-based guarantees beyond these do
not hold (see the counterexample). -/
theorem cancel_task_spec (st : JobManagerState) (job_id : String)
    (hknown : st.jobs.lookup job_id = none → st.tasks.lookup job_id = none) :
    (cancel st job_id = true ↔
      ∃ t, st.tasks.lookup job_id = some t ∧ t.done = false) ∧
    (st.jobs.lookup job_id = none → cancel st job_id = false) := by
  cases htask : st.tasks.lookup job_id with
  | none =>
      have hcv : cancel st job_id = false := by simp [cancel, htask]
      refine ⟨?_, fun _ => hcv⟩
      constructor
      · intro habs
        rw [hcv] at habs
        exact absurd habs (by simp)
      · rintro ⟨t, ht, -⟩
        exact absurd ht (by simp)
  | some t0 =>
      have hcv : cancel st job_id = !t0.done := by simp [cancel, htask]
      refine ⟨?_, ?_⟩
      · rw [hcv]
        constructor
        · intro hb
          refine ⟨t0, rfl, ?_⟩
          revert hb
          cases t0.done <;> simp
        · rintro ⟨t, ht, hdone⟩
          injection ht with ht
          rw [← ht] at hdone
          rw [hdone]
          rfl
      · intro hnone
        have hgone := hknown hnone
        rw [htask] at hgone
        exact absurd hgone (by simp)

/-- Witness for C4: in the concrete manager state `st_w`, cancelling job
`"a"` (whose recorded task is not done) returns true, and cancelling the
unknown id `"zzz"` returns false. -/
theorem cancel_task_spec_witness :
    cancel st_w "a" = true ∧ cancel st_w "zzz" = false :=
  ⟨(cancel_task_spec st_w "a" (fun h => absurd h (by decide))).1.mpr
     ⟨{ done := false }, by decide, rfl⟩,
   (cancel_task_spec st_w "zzz" (fun _ => by decide)).2 (by decide)⟩

/-- C6: `broadcast` leaves the manager state — in particular the
subscriber set — unchanged, delivers the message to every subscribed
observer whose send does not raise, and delivers nothing to an observer
whose send raises; a raising observer therefore neither blocks delivery
to the other subscribers nor gets removed.  As a Lean function,
`broadcast` is total: it never raises. -/
theorem broadcast_isolation (st : JobManagerState) (job_id message : String)
    (subs : List WS) (hsubs : st.subscribers.lookup job_id = some subs) :
    (broadcast st job_id message).1 = st ∧
    (broadcast st job_id message).1.subscribers.lookup job_id = some subs ∧
    (∀ ws, ws ∈ subs → ws.fails = false →
      (ws, message) ∈ (broadcast st job_id message).2) ∧
    (∀ ws, ws ∈ subs → ws.fails = true →
      (ws, message) ∉ (broadcast st job_id message).2) := by
  refine ⟨rfl, hsubs, ?_, ?_⟩
  · intro ws hmem hok
    simp only [broadcast, hsubs, Option.getD_some, List.mem_map]
    exact ⟨ws, List.mem_filter.mpr ⟨hmem, by rw [hok]; rfl⟩, rfl⟩
  · intro ws hmem hfail habs
    simp only [broadcast, hsubs, Option.getD_some, List.mem_map] at habs
    obtain ⟨w, hw, heq⟩ := habs
    have hwws : w = ws := congrArg Prod.fst heq
    rw [hwws] at hw
    have := (List.mem_filter.mp hw).2
    rw [hfail] at this
    exact absurd this (by simp)

/-- Witness for C6: in `st_b`, broadcasting to job `"a"` (whose second
subscriber raises) leaves the state unchanged and still delivers to the
third subscriber. -/
theorem broadcast_isolation_witness :
    (broadcast st_b "a" "hello").1 = st_b ∧
    ({ wsId := 3, fails := false }, "hello") ∈ (broadcast st_b "a" "hello").2 :=
  ⟨(broadcast_isolation st_b "a" "hello"
      [{ wsId := 1, fails := false }, { wsId := 2, fails := true },
       { wsId := 3, fails := false }] (by decide)).1,
   (broadcast_isolation st_b "a" "hello"
      [{ wsId := 1, fails := false }, { wsId := 2, fails := true },
       { wsId := 3, fails := false }] (by decide)).2.2.1
     { wsId := 3, fails := false } (by decide) rfl⟩

/-- C9: a download request whose (resolved) target directory lies
outside the allowed base — the base's components are not a prefix of the
target's — is rejected with a 400 validation error and the manager state
is returned untouched: no job record is inserted and no worker task is
recorded. -/
theorem post_download_sandbox (st : JobManagerState) (payload : DownloadRequest)
    (settings : FsSettings) (is_dir_after_mkdir : List String → Bool)
    (fresh_id : String) (target : List String)
    (hreq : payload.targetDir = some target)
    (hout : settings.allowed_base_dir.isPrefixOf target = false) :
    post_download st payload settings is_dir_after_mkdir fresh_id =
      (st, Except.error (400, "Target directory is outside the allowed base directory")) := by
  simp [post_download, resolve_target_dir, hreq, hout]

/-- Witness for C9: a request for `/etc` against base `/downloads` is
rejected with a 400 and an unchanged (empty) manager state. -/
theorem post_download_sandbox_witness :
    post_download { jobs := [], tasks := [], subscribers := [] }
        { url := "u", formatId := "18", targetDir := some ["etc"] }
        { allowed_base_dir := ["downloads"], default_download_dir := ["downloads"] }
        (fun _ => true) "id1" =
      ({ jobs := [], tasks := [], subscribers := [] },
        Except.error (400, "Target directory is outside the allowed base directory")) :=
  post_download_sandbox _ _ _ _ _ ["etc"] rfl (by decide)

theorem hook_downloading_status (j : Job) (a b c : Int) (d : Option Int) :
    (hook j (HookEvent.downloading a b c d)).status = j.status := rfl

theorem hook_finished_status (j : Job) (fn : Option String) :
    (hook j (HookEvent.finished fn)).status = JobStatus.succeeded := by
  cases fn with
  | none => rfl
  | some s =>
      by_cases hs : s = "" <;> simp [hook, hs]

theorem hook_finished_percent (j : Job) (fn : Option String) :
    (hook j (HookEvent.finished fn)).progress_percent = 100 := by
  cases fn with
  | none => rfl
  | some s =>
      by_cases hs : s = "" <;> simp [hook, hs]

theorem hook_downloading_percent_eq (j : Job) (a b c : Int) (d : Option Int) :
    (hook j (HookEvent.downloading a b c d)).progress_percent =
      (if (if c > 1 then pymax 0 (pymin (_safe_percent b (some c)) 100)
           else pymax 0 (pymin (_safe_percent a d) 100)) < j.progress_percent
       then j.progress_percent
       else if c > 1 then pymax 0 (pymin (_safe_percent b (some c)) 100)
            else pymax 0 (pymin (_safe_percent a d) 100)) := rfl

theorem mono_update_ge (old x : ℚ) : old ≤ (if x < old then old else x) := by
  by_cases h : x < old
  · rw [if_pos h]
  · rw [if_neg h]
    exact le_of_not_lt h

theorem mono_update_le (old x : ℚ) (h1 : old ≤ 100) (h2 : x ≤ 100) :
    (if x < old then old else x) ≤ 100 := by
  by_cases h : x < old
  · rw [if_pos h]
    exact h1
  · rw [if_neg h]
    exact h2

theorem clamp_le_100 (x : ℚ) : pymax 0 (pymin x 100) ≤ 100 := by
  rw [pymax_eq_max, pymin_eq_min]
  exact max_le (by norm_num) (min_le_right x 100)

theorem hook_downloading_percent_ge (j : Job) (a b c : Int) (d : Option Int) :
    j.progress_percent ≤ (hook j (HookEvent.downloading a b c d)).progress_percent := by
  rw [hook_downloading_percent_eq]
  exact mono_update_ge _ _

theorem hook_downloading_percent_le (j : Job) (a b c : Int) (d : Option Int)
    (h : j.progress_percent ≤ 100) :
    (hook j (HookEvent.downloading a b c d)).progress_percent ≤ 100 := by
  rw [hook_downloading_percent_eq]
  refine mono_update_le _ _ h ?_
  by_cases hc : c > 1
  · rw [if_pos hc]
    exact clamp_le_100 _
  · rw [if_neg hc]
    exact clamp_le_100 _

theorem hook_percent_le (j : Job) (e : HookEvent) (h : j.progress_percent ≤ 100) :
    (hook j e).progress_percent ≤ 100 := by
  cases e with
  | downloading a b c d => exact hook_downloading_percent_le j a b c d h
  | finished fn =>
      rw [hook_finished_percent]
  | other => exact h

theorem hook_percent_mono (j : Job) (e : HookEvent) (h : j.progress_percent ≤ 100) :
    j.progress_percent ≤ (hook j e).progress_percent := by
  cases e with
  | downloading a b c d => exact hook_downloading_percent_ge j a b c d
  | finished fn =>
      rw [hook_finished_percent]
      exact h
  | other => exact le_refl _

theorem hook_error (j : Job) (e : HookEvent) : (hook j e).error = j.error := by
  cases e with
  | downloading a b c d => rfl
  | finished fn =>
      cases fn with
      | none => rfl
      | some s => by_cases hs : s = "" <;> simp [hook, hs]
  | other => rfl

theorem foldl_hook_error (events : List HookEvent) :
    ∀ j : Job, (List.foldl hook j events).error = j.error := by
  induction events with
  | nil => intro j; rfl
  | cons e es ih =>
      intro j
      rw [List.foldl_cons, ih (hook j e), hook_error]

theorem hook_status_run_or_succ (j : Job) (e : HookEvent)
    (h : j.status = JobStatus.running ∨ j.status = JobStatus.succeeded) :
    (hook j e).status = JobStatus.running ∨ (hook j e).status = JobStatus.succeeded := by
  cases e with
  | downloading a b c d => rw [hook_downloading_status]; exact h
  | finished fn => right; exact hook_finished_status j fn
  | other => exact h

theorem foldl_hook_status (events : List HookEvent) :
    ∀ j : Job, j.status = JobStatus.running ∨ j.status = JobStatus.succeeded →
    (List.foldl hook j events).status = JobStatus.running ∨
      (List.foldl hook j events).status = JobStatus.succeeded := by
  induction events with
  | nil => intro j h; exact h
  | cons e es ih =>
      intro j h
      rw [List.foldl_cons]
      exact ih (hook j e) (hook_status_run_or_succ j e h)

theorem hook_succ_100 (j : Job) (e : HookEvent)
    (h : j.status = JobStatus.succeeded → j.progress_percent = 100) :
    (hook j e).status = JobStatus.succeeded → (hook j e).progress_percent = 100 := by
  cases e with
  | downloading a b c d =>
      intro hs
      rw [hook_downloading_status] at hs
      have h100 := h hs
      have hge := hook_downloading_percent_ge j a b c d
      have hle := hook_downloading_percent_le j a b c d (le_of_eq h100)
      rw [h100] at hge
      exact le_antisymm hle hge
  | finished fn =>
      intro _
      exact hook_finished_percent j fn
  | other => exact h

theorem foldl_hook_succ_100 (events : List HookEvent) :
    ∀ j : Job, (j.status = JobStatus.succeeded → j.progress_percent = 100) →
    (List.foldl hook j events).status = JobStatus.succeeded →
      (List.foldl hook j events).progress_percent = 100 := by
  induction events with
  | nil => intro j h; exact h
  | cons e es ih =>
      intro j h
      rw [List.foldl_cons]
      exact ih (hook j e) (hook_succ_100 j e h)

theorem run_states_mem_succ_100 (events : List HookEvent) :
    ∀ j : Job, (j.status = JobStatus.succeeded → j.progress_percent = 100) →
    ∀ x ∈ run_states j events, x.status = JobStatus.succeeded → x.progress_percent = 100 := by
  induction events with
  | nil =>
      intro j h x hx
      rw [run_states] at hx
      rw [List.mem_singleton] at hx
      rw [hx]
      exact h
  | cons e es ih =>
      intro j h x hx
      rw [run_states, List.mem_cons] at hx
      rcases hx with hx | hx
      · rw [hx]
        exact h
      · exact ih (hook j e) (hook_succ_100 j e h) x hx

theorem hook_filepath (j : Job) (e : HookEvent) :
    (hook j e).file_path = j.file_path ∨
    ∃ s, s ≠ "" ∧ e = HookEvent.finished (some s) ∧ (hook j e).file_path = some s := by
  cases e with
  | downloading a b c d => left; rfl
  | finished fn =>
      cases fn with
      | none => left; rfl
      | some s =>
          by_cases hs : s = ""
          · left
            simp [hook, hs]
          · right
            exact ⟨s, hs, rfl, by simp [hook, hs]⟩
  | other => left; rfl

theorem foldl_hook_filepath (events : List HookEvent) :
    ∀ j : Job, (List.foldl hook j events).file_path.isSome = true →
    j.file_path.isSome = true ∨
      ∃ s, s ≠ "" ∧ HookEvent.finished (some s) ∈ events := by
  induction events with
  | nil => intro j h; left; exact h
  | cons e es ih =>
      intro j h
      rw [List.foldl_cons] at h
      rcases ih (hook j e) h with h1 | ⟨s, hs, hmem⟩
      · rcases hook_filepath j e with heq | ⟨s, hs, he, hset⟩
        · left
          rw [heq] at h1
          exact h1
        · right
          exact ⟨s, hs, by rw [he]; exact List.mem_cons_self _ _⟩
      · right
        exact ⟨s, hs, List.mem_cons_of_mem e hmem⟩

theorem run_download_filepath (job0 : Job) (events : List HookEvent)
    (res : BlockingResult) :
    (run_download job0 events res).file_path =
      (List.foldl hook (reset_before_run job0) events).file_path := by
  cases res with
  | returned =>
      simp only [run_download]
      split <;> rfl
  | raised msg => rfl
  | interrupted => rfl

/-- C1: no execution of `run_download` ever leaves the job in the
`CANCELLED` status — the only statuses it can end in are `RUNNING`
(interrupted), `SUCCEEDED` or `FAILED`.  In particular, when the worker
is interrupted by task cancellation after a hook invocation, the status
stays `RUNNING`: `asyncio.CancelledError` is not an `Exception`, so the
handler that the claim relies on never runs and no code path assigns
`CANCELLED`. -/
theorem run_download_never_sets_cancelled (job0 : Job) (events : List HookEvent)
    (res : BlockingResult) :
    ((run_download job0 events res).status = JobStatus.running ∨
     (run_download job0 events res).status = JobStatus.succeeded ∨
     (run_download job0 events res).status = JobStatus.failed) ∧
    (run_download job₀ [HookEvent.downloading 100 0 0 (some 100)]
        BlockingResult.interrupted).status = JobStatus.running := by
  constructor
  · have hfold := foldl_hook_status events (reset_before_run job0) (Or.inl rfl)
    cases res with
    | returned =>
        simp only [run_download]
        split
        · right; left; rfl
        · rcases hfold with h | h
          · left; exact h
          · right; left; exact h
    | raised msg => right; right; rfl
    | interrupted =>
        rcases hfold with h | h
        · left; exact h
        · right; left; exact h
  · rfl

theorem run_download_returned (job0 : Job) (events : List HookEvent) :
    run_download job0 events BlockingResult.returned =
      (if (List.foldl hook (reset_before_run job0) events).status = JobStatus.running
       then { (List.foldl hook (reset_before_run job0) events) with
              status := JobStatus.succeeded, progress_percent := 100 }
       else List.foldl hook (reset_before_run job0) events) := rfl

theorem run_download_raised (job0 : Job) (events : List HookEvent) (msg : String) :
    run_download job0 events (BlockingResult.raised msg) =
      { (List.foldl hook (reset_before_run job0) events) with
        status := JobStatus.failed, error := some msg } := rfl

theorem run_download_interrupted (job0 : Job) (events : List HookEvent) :
    run_download job0 events BlockingResult.interrupted =
      List.foldl hook (reset_before_run job0) events := rfl

theorem run_states_head (j : Job) (es : List HookEvent) :
    (run_states j es).head? = some j := by
  cases es <;> rfl

theorem run_states_chain (events : List HookEvent) :
    ∀ j : Job, j.progress_percent ≤ 100 →
    List.Chain' (fun a b => a.progress_percent ≤ b.progress_percent)
      (run_states j events) := by
  induction events with
  | nil =>
      intro j h
      rw [run_states]
      exact List.chain'_singleton j
  | cons e es ih =>
      intro j h
      rw [run_states]
      refine List.chain'_cons'.mpr ⟨?_, ih (hook j e) (hook_percent_le j e h)⟩
      intro y hy
      rw [run_states_head] at hy
      rw [Option.mem_some_iff] at hy
      subst hy
      exact hook_percent_mono j e h

/-- C5: within one lifetime of a job, the recorded `progress_percent` is
monotonically non-decreasing across the sequence of progress-hook
invocations: each hook either keeps the old percent (when the freshly
computed clamped percent is smaller) or raises it, so the stored percent
never decreases. -/
theorem progress_monotone (job0 : Job) (events : List HookEvent) :
    List.Chain' (fun a b => a.progress_percent ≤ b.progress_percent)
      (run_states (reset_before_run job0) events) :=
  run_states_chain events (reset_before_run job0)
    (by show (0 : ℚ) ≤ 100; norm_num)

/-- C2 counterexample: a `"downloading"` hook invocation with
`downloaded = total = 100` drives `progress_percent` to exactly 100
while the status is still `RUNNING` — this state occurs in the job's
lifetime (it is in the run trace), so `progressPercent = 100.0` does not
imply status `SUCCEEDED`. -/
theorem progress_100_iff_succeeded_counterexample :
    (hook (reset_before_run job₀) (HookEvent.downloading 100 0 0 (some 100))).progress_percent
        = 100 ∧
    (hook (reset_before_run job₀) (HookEvent.downloading 100 0 0 (some 100))).status
        = JobStatus.running ∧
    hook (reset_before_run job₀) (HookEvent.downloading 100 0 0 (some 100)) ∈
      run_trace job₀ [HookEvent.downloading 100 0 0 (some 100)]
        BlockingResult.interrupted := by
  refine ⟨?_, rfl, ?_⟩
  · norm_num [hook, reset_before_run, job₀, _safe_percent, pymin, pymax]
  · rw [run_trace, run_states, run_states]
    exact List.mem_append_left _ (List.mem_cons_of_mem _ (List.mem_singleton.mpr rfl))

/-- C2 (amended): every state with status `SUCCEEDED` observed in a
job's lifetime — any intermediate hook state or the final state of
`run_download` — records `progress_percent` exactly 100; the converse
direction of the claim fails (see the counterexample). -/
theorem succeeded_implies_progress_100 (job0 : Job) (events : List HookEvent)
    (res : BlockingResult) (j : Job) (hj : j ∈ run_trace job0 events res)
    (hs : j.status = JobStatus.succeeded) : j.progress_percent = 100 := by
  have hreset : (reset_before_run job0).status = JobStatus.succeeded →
      (reset_before_run job0).progress_percent = 100 := by
    intro habs
    have habs2 : JobStatus.running = JobStatus.succeeded := habs
    exact absurd habs2 (by decide)
  rw [run_trace, List.mem_append] at hj
  rcases hj with hmem | hfin
  · exact run_states_mem_succ_100 events (reset_before_run job0) hreset j hmem hs
  · rw [List.mem_singleton] at hfin
    subst hfin
    have hP := foldl_hook_succ_100 events (reset_before_run job0) hreset
    cases res with
    | returned =>
        rw [run_download_returned] at hs ⊢
        by_cases hr :
            (List.foldl hook (reset_before_run job0) events).status = JobStatus.running
        · rw [if_pos hr]
        · rw [if_neg hr] at hs ⊢
          exact hP hs
    | raised msg =>
        rw [run_download_raised] at hs
        have hs2 : JobStatus.failed = JobStatus.succeeded := hs
        exact absurd hs2 (by decide)
    | interrupted =>
        rw [run_download_interrupted] at hs ⊢
        exact hP hs

/-- Witness for C2: the final state of a run that returned without hook
events is `SUCCEEDED`, lies in the run trace, and records percent 100. -/
theorem succeeded_implies_progress_100_witness :
    run_download job₀ [] BlockingResult.returned ∈
      run_trace job₀ [] BlockingResult.returned ∧
    (run_download job₀ [] BlockingResult.returned).progress_percent = 100 :=
  ⟨List.mem_append_right _ (List.mem_singleton.mpr rfl),
   succeeded_implies_progress_100 job₀ [] BlockingResult.returned _
     (List.mem_append_right _ (List.mem_singleton.mpr rfl)) (by decide)⟩

/-- C3 counterexample: a run that returns normally with no `finished`
hook event ends `SUCCEEDED` with `file_path = none` and `error = none` —
a terminal `SUCCEEDED` job with neither field set, contradicting
"exactly one is set" and "never a SUCCEEDED job with no filePath". -/
theorem terminal_exactly_one_counterexample :
    isTerminal (run_download job₀ [] BlockingResult.returned).status = true ∧
    (run_download job₀ [] BlockingResult.returned).status = JobStatus.succeeded ∧
    (run_download job₀ [] BlockingResult.returned).file_path = none ∧
    (run_download job₀ [] BlockingResult.returned).error = none := by
  refine ⟨rfl, rfl, rfl, rfl⟩

/-- C3 (amended): once `run_download` ends in a terminal state,
`errorMessage` is set if and only if the status is `FAILED`; `filePath`
can only have been set by a `finished` hook that reported a non-empty
filename, so a `SUCCEEDED` job may lack it (and a job that failed after
a `finished` report may carry both fields). -/
theorem terminal_error_iff_failed (job0 : Job) (events : List HookEvent)
    (res : BlockingResult) :
    (isTerminal (run_download job0 events res).status = true →
      ((run_download job0 events res).error.isSome = true ↔
        (run_download job0 events res).status = JobStatus.failed)) ∧
    ((run_download job0 events res).file_path.isSome = true →
      ∃ s, s ≠ "" ∧ HookEvent.finished (some s) ∈ events) := by
  have herr : (List.foldl hook (reset_before_run job0) events).error = none := by
    rw [foldl_hook_error]
    rfl
  have hstat := foldl_hook_status events (reset_before_run job0) (Or.inl rfl)
  constructor
  · intro hterm
    cases res with
    | returned =>
        rw [run_download_returned] at hterm ⊢
        by_cases hr :
            (List.foldl hook (reset_before_run job0) events).status = JobStatus.running
        · rw [if_pos hr] at hterm ⊢
          constructor
          · intro habs
            rw [show ({ (List.foldl hook (reset_before_run job0) events) with
                  status := JobStatus.succeeded, progress_percent := 100 } : Job).error =
                (List.foldl hook (reset_before_run job0) events).error from rfl,
              herr] at habs
            exact absurd habs (by simp)
          · intro habs
            have habs2 : JobStatus.succeeded = JobStatus.failed := habs
            exact absurd habs2 (by decide)
        · rw [if_neg hr] at hterm ⊢
          have hsucc : (List.foldl hook (reset_before_run job0) events).status =
              JobStatus.succeeded := hstat.resolve_left hr
          constructor
          · intro habs
            rw [herr] at habs
            exact absurd habs (by simp)
          · intro habs
            rw [habs] at hsucc
            exact absurd hsucc (by decide)
    | raised msg =>
        rw [run_download_raised]
        constructor
        · intro _
          rfl
        · intro _
          rfl
    | interrupted =>
        rw [run_download_interrupted] at hterm ⊢
        rcases hstat with hr | hsucc
        · rw [hr] at hterm
          exact absurd hterm (by decide)
        · constructor
          · intro habs
            rw [herr] at habs
            exact absurd habs (by simp)
          · intro habs
            rw [habs] at hsucc
            exact absurd hsucc (by decide)
  · intro hfp
    rw [run_download_filepath] at hfp
    rcases foldl_hook_filepath events (reset_before_run job0) hfp with h1 | h2
    · have h12 : (none : Option String).isSome = true := h1
      exact absurd h12 (by decide)
    · exact h2

/-- Witness for C3: a run that raises ends terminal with an error
message set, and a run whose `finished` hook reported a filename has
that filename witnessed among its events. -/
theorem terminal_error_iff_failed_witness :
    (run_download job₀ [] (BlockingResult.raised "boom")).error.isSome = true ∧
    (∃ s, s ≠ "" ∧ HookEvent.finished (some s) ∈
      [HookEvent.finished (some "/downloads/f.mp4")]) :=
  ⟨((terminal_error_iff_failed job₀ [] (BlockingResult.raised "boom")).1
      (by decide)).mpr (by decide),
   (terminal_error_iff_failed job₀ [HookEvent.finished (some "/downloads/f.mp4")]
      BlockingResult.returned).2 (by decide)⟩

end YtDl
